import Mathlib

/-!
# Verification of the gallery viewer's indexing pipeline and derivative cache

Shallow embedding of `viewer_colab/server.py` (and the near-identical
`viewer/server.py`): the path sandbox (`safe_relative`), the index builder
(`load_items`, both manifest and directory-scan modes), the derivative cache
(`build_resized`, `make_thumb_path`, `make_display_path`), and the thumbnail
branch of the request handler (`ViewerHandler.do_GET`).

Python strings are Lean `String`s, but every string operation is implemented
here by structural recursion on the underlying character list (`String.data`)
so that all definitions reduce in the kernel.  Absolute filesystem paths are
segment lists (the `parts` of a `pathlib.Path` after its normalization, which
drops `.` components but keeps `..`).  The filesystem, the OS path
canonicalizer (`Path.resolve`), the JSON parser (`json.loads`) and the PIL
pipeline are external collaborators of the code under study; they appear as
explicit parameters (an association-list filesystem, a resolver function, a
parser function, a pipeline-outcome value).
-/

namespace GalleryViewer

/-! ## Python string primitives, on character lists -/

/-- `str.lower()` of CPython restricted to the character-wise case mapping
(the dataset names are ASCII file names). -/
def pyLower (s : String) : String :=
  String.mk (s.data.map Char.toLower)

/-- Leading-whitespace removal, one character at a time. -/
def dropLeadWs : List Char → List Char
  | [] => []
  | c :: rest => if c.isWhitespace then dropLeadWs rest else c :: rest

/-- `str.strip()`: remove leading and trailing whitespace. -/
def pyStrip (s : String) : String :=
  String.mk ((dropLeadWs (dropLeadWs s.data.reverse).reverse))

/-- Splitting into maximal whitespace-free tokens, as `str.split()` with no
arguments does (no empty tokens are produced). -/
def wsTokens (cur : List Char) : List Char → List String
  | [] => if cur = [] then [] else [String.mk cur.reverse]
  | c :: rest =>
      if c.isWhitespace then
        if cur = [] then wsTokens [] rest
        else String.mk cur.reverse :: wsTokens [] rest
      else wsTokens (c :: cur) rest

/-- `str.split()` with no arguments. -/
def pySplitWs (s : String) : List String :=
  wsTokens [] s.data

/-- Code-point-wise lexicographic `<=` on strings, the comparison CPython's
`list.sort` applies to the `str` sort keys. -/
def lexLe : List Char → List Char → Bool
  | [], _ => true
  | _ :: _, [] => false
  | a :: as, b :: bs =>
      if a.toNat < b.toNat then true
      else if b.toNat < a.toNat then false
      else lexLe as bs

/-- Helper for `pySuffix`: the input is the reversed character list of a file
name, `acc` the (forward-order) characters seen after the last `.`.  Mirrors
CPython's `PurePath.suffix`: the suffix is `name[i:]` for `i` the index of the
last dot, provided `0 < i < len(name) - 1`, else empty. -/
def sufAux (acc : List Char) : List Char → List Char
  | [] => []
  | c :: rest =>
      if c = '.' then
        if acc = [] then [] else if rest = [] then [] else '.' :: acc
      else sufAux (c :: acc) rest

/-- `pathlib.PurePath.suffix` of a final path component. -/
def pySuffix (name : String) : String :=
  String.mk (sufAux [] name.data.reverse)

/-- `s.endswith(t)`, via the character lists. -/
def pyEndsWith (s t : String) : Bool :=
  t.data.isSuffixOf s.data

/-- `s[:-n]` for `n ≤ len(s)`: drop the last `n` characters. -/
def pyDropRight (s : String) (n : Nat) : String :=
  String.mk (s.data.take (s.data.length - n))

/-! ## Paths

An absolute, in-canonical-form filesystem location is a list of path segments
(`pathlib`'s `parts` without the leading `/` anchor).  A parsed `Path(...)`
value additionally remembers whether it was written absolute, since
`root / p` keeps only `p` when `p` is absolute. -/

/-- An absolute path, as its list of segments. -/
abbrev AbsPath := List String

/-- A `pathlib.Path` as parsed from a string: an absolute flag plus segments
(`pathlib` collapses empty and `.` components at construction). -/
structure PyPath where
  abs : Bool
  segs : List String
deriving DecidableEq, Repr

/-- Split a path string on `/`, dropping empty and `.` components, exactly the
normalization `pathlib.PurePath` applies at construction time. -/
def parseSegs (cur : List Char) : List Char → List String
  | [] => if cur = [] ∨ cur = ['.'] then [] else [String.mk cur.reverse]
  | c :: rest =>
      if c = '/' then
        if cur = [] ∨ cur = ['.'] then parseSegs [] rest
        else String.mk cur.reverse :: parseSegs [] rest
      else parseSegs (c :: cur) rest

/-- `Path(s)` for a path string `s`. -/
def parsePath (s : String) : PyPath :=
  { abs := decide (s.data.head? = some '/'), segs := parseSegs [] s.data }

/-- `base / p` for an absolute `base`: when `p` is absolute the base is
discarded, exactly as `pathlib` does. -/
def pyJoin (base : AbsPath) (p : PyPath) : AbsPath :=
  if p.abs then p.segs else base ++ p.segs

/-- `Path.name`: the final component (empty for the filesystem root). -/
def lastName (p : AbsPath) : String :=
  (p.getLast?).getD ""

/-- `f"{path}{suf}"` reparsed as a path, for an absolute `path`: string
concatenation extends the final segment (used for the `.caption.txt` /
`.json` side-car names and never reached with an empty path). -/
def appendLastAbs : AbsPath → String → AbsPath
  | [], suf => [suf]
  | [s], suf => [s ++ suf]
  | s :: rest, suf => s :: appendLastAbs rest suf

/-- `rel.as_posix() + suf` reparsed, for a relative `rel`: `as_posix()` of an
empty relative path is `"."`, so the suffix lands on a literal dot. -/
def appendLastPosix : List String → String → List String
  | [], suf => ["." ++ suf]
  | [s], suf => [s ++ suf]
  | s :: rest, suf => s :: appendLastPosix rest suf

/-! ## The OS path canonicalizer

`pathlib.Path.resolve()` (non-strict) follows symlinks and eliminates `.` and
`..` segments left to right.  The symlink table is an association list from
absolute locations to absolute link targets; `fuel` bounds link expansions
(CPython errors out on symlink loops; an exhausted fuel here returns the
remaining path unexpanded). -/

/-- Association-list lookup of a symlink target. -/
def linkLookup (links : List (AbsPath × AbsPath)) (p : AbsPath) : Option AbsPath :=
  match links with
  | [] => none
  | (q, t) :: rest => if q = p then some t else linkLookup rest p

/-- The canonicalization loop: `acc` is the already-canonical prefix, the
second list the segments still to process; the fuel bounds the total number
of steps and is exhausted only on pathological symlink chains. -/
def resolveGo (links : List (AbsPath × AbsPath)) :
    Nat → AbsPath → List String → AbsPath
  | _, acc, [] => acc
  | 0, acc, rest => acc ++ rest
  | fuel + 1, acc, seg :: rest =>
      if seg = "." then resolveGo links fuel acc rest
      else if seg = ".." then resolveGo links fuel acc.dropLast rest
      else
        match linkLookup links (acc ++ [seg]) with
        | some tgt => resolveGo links fuel [] (tgt ++ rest)
        | none => resolveGo links fuel (acc ++ [seg]) rest

/-- `Path.resolve()` over the given symlink table. -/
def pyResolve (links : List (AbsPath × AbsPath)) (fuel : Nat) (p : AbsPath) : AbsPath :=
  resolveGo links fuel [] p

/-! ## JSON values and Python dynamic-object semantics -/

/-- A parsed JSON document, as `json.loads` returns it (`null` also stands for
a Python `None`, which is what `dict.get` yields for an absent key). -/
inductive JVal
  | jnull
  | jbool (b : Bool)
  | jnum (n : Int)
  | jstr (s : String)
  | jarr (xs : List JVal)
  | jobj (fields : List (String × JVal))

/-- The dynamic errors the viewer code can raise past its own handlers. -/
inductive PyErr
  | attributeError
  | typeError
  | readError
deriving DecidableEq, Repr

/-- Python truthiness of a JSON-shaped value. -/
def pyTruthy : JVal → Bool
  | .jnull => false
  | .jbool b => b
  | .jnum n => n != 0
  | .jstr s => s.data != []
  | .jarr xs => !xs.isEmpty
  | .jobj fields => !fields.isEmpty

/-- Association-list lookup among an object's fields. -/
def fieldLookup (fields : List (String × JVal)) (key : String) : Option JVal :=
  match fields with
  | [] => none
  | (k, v) :: rest => if k = key then some v else fieldLookup rest key

/-- `row.get(key, default)`: an `AttributeError` when the receiver is not an
object (`dict`), the default when the key is absent. -/
def rowGet (row : JVal) (key : String) (dflt : JVal) : Except PyErr JVal :=
  match row with
  | .jobj fields => .ok ((fieldLookup fields key).getD dflt)
  | _ => .error .attributeError

/-- `meta.get(key)` with no default: `None` (here `jnull`) when absent. -/
def metaGet (meta : JVal) (key : String) : Except PyErr JVal :=
  rowGet meta key .jnull

/-- `Path(x)` / string use of a dynamic value: a `TypeError` unless it is a
string. -/
def asStr (v : JVal) : Except PyErr String :=
  match v with
  | .jstr s => .ok s
  | _ => .error .typeError

/-! ## The filesystem -/

/-- A filesystem node: a regular file together with the outcome its
`read_text` would have (reads can fail on permissions or encoding), a
partially written file left behind by an interrupted writer, or a
directory. -/
inductive FNode
  | fileN (read : Except Unit String)
  | partF
  | dirN

/-- A snapshot of the filesystem: nodes keyed by canonical absolute path, in
the (deterministic) order directory enumeration yields them. -/
structure FS where
  nodes : List (AbsPath × FNode)

/-- Association-list lookup of a node. -/
def lookupN (l : List (AbsPath × FNode)) (p : AbsPath) : Option FNode :=
  match l with
  | [] => none
  | (q, m) :: rest => if q = p then some m else lookupN rest p

/-- Node at a canonical path, if any. -/
def FS.lookup (fs : FS) (p : AbsPath) : Option FNode :=
  lookupN fs.nodes p

/-- `Path.exists()` at an already-canonical path (the Python call follows
symlinks first; callers below pass resolved paths). -/
def FS.existsP (fs : FS) (p : AbsPath) : Bool :=
  (fs.lookup p).isSome

/-- `read_text()` at a canonical path: the file's read outcome; reading a
directory raises; a partially written file reads back its partial bytes. -/
def readText (fs : FS) (p : AbsPath) : Except PyErr String :=
  match fs.lookup p with
  | some (.fileN (.ok s)) => .ok s
  | some (.fileN (.error _)) => .error .readError
  | some .partF => .ok ""
  | some .dirN => .error .readError
  | none => .error .readError

/-- Replace the node at `p`, or append a fresh entry. -/
def upsertN (l : List (AbsPath × FNode)) (p : AbsPath) (nd : FNode) :
    List (AbsPath × FNode) :=
  match l with
  | [] => [(p, nd)]
  | (q, m) :: rest => if q = p then (p, nd) :: rest else (q, m) :: upsertN rest p nd

/-- Write (create or overwrite) a node. -/
def FS.write (fs : FS) (p : AbsPath) (nd : FNode) : FS :=
  ⟨upsertN fs.nodes p nd⟩

/-- The proper non-empty ancestor locations of a path, shallow first. -/
def ancestorsOf (p : AbsPath) : List AbsPath :=
  ((List.range p.length).map (fun n => p.take n)).filter (fun q => q ≠ [])

/-- `target.parent.mkdir(parents=True, exist_ok=True)`: create every missing
ancestor directory. -/
def FS.mkParents (fs : FS) (p : AbsPath) : FS :=
  (ancestorsOf p).foldl (fun acc q => if acc.existsP q then acc else acc.write q .dirN) fs

/-! ## Source constants (`server.py`, module level) -/

/-- `IMAGE_EXTS = {".jpg", ".jpeg", ".png", ".webp", ".gif"}` -/
def IMAGE_EXTS : List String := [".jpg", ".jpeg", ".png", ".webp", ".gif"]

/-- `THUMB_SUFFIX = ".thumb.jpg"` -/
def THUMB_SUFFIX : String := ".thumb.jpg"

/-- `DISPLAY_SUFFIX = ".display.jpg"` -/
def DISPLAY_SUFFIX : String := ".display.jpg"

/-! ## `split_tags`, `safe_relative`, cache-path construction -/

/-- `split_tags(value)`: `[t for t in (value or "").split() if t]`.  A falsy
dynamic value is replaced by the empty string; a truthy non-string has no
`.split` and raises `AttributeError`. -/
def split_tags (value : JVal) : Except PyErr (List String) :=
  let v := if pyTruthy value then value else .jstr ""
  match v with
  | .jstr s => .ok ((pySplitWs s).filter (fun t => t ≠ ""))
  | _ => .error .attributeError

/-- `target.relative_to(root)` on already-resolved paths: compares the part
lists segment by segment; `ValueError` (here `none`) when `root`'s parts are
not an initial run of `target`'s. -/
def relative_to : (target : AbsPath) → (root : AbsPath) → Option AbsPath
  | t, [] => some t
  | [], _ :: _ => none
  | t :: ts, r :: rs => if t = r then relative_to ts rs else none

/-- `safe_relative(root, target)`: resolve both, then `relative_to`, with the
`ValueError` mapped to `None`.  The resolver is the OS canonicalizer. -/
def safe_relative (resolve : AbsPath → AbsPath) (root target : AbsPath) :
    Option AbsPath :=
  relative_to (resolve target) (resolve root)

/-- `make_thumb_path(root, rel) = root / ".thumbs" / (rel.as_posix() + THUMB_SUFFIX)`. -/
def make_thumb_path (root : AbsPath) (rel : PyPath) : AbsPath :=
  pyJoin (root ++ [".thumbs"]) ⟨rel.abs, appendLastPosix rel.segs THUMB_SUFFIX⟩

/-- `make_display_path(root, rel) = root / ".display" / (rel.as_posix() + DISPLAY_SUFFIX)`. -/
def make_display_path (root : AbsPath) (rel : PyPath) : AbsPath :=
  pyJoin (root ++ [".display"]) ⟨rel.abs, appendLastPosix rel.segs DISPLAY_SUFFIX⟩

/-! ## Dataset items -/

/-- The four tag slots of an item.  In manifest mode the values are stored
exactly as the row carried them (any JSON value); in scan mode they are the
string arrays produced by `split_tags`. -/
structure Tags where
  artist : JVal
  copyright : JVal
  character : JVal
  general : JVal

/-- The all-empty tag slots scan mode starts from. -/
def emptyTags : Tags :=
  ⟨.jarr [], .jarr [], .jarr [], .jarr []⟩

/-- One entry of the built index.  `imagePath` is the sandbox-relative path
`rel` returned by `safe_relative`; the `image_url`/`thumb_url`/`display_url`
fields of the Python dict are fixed prefixes plus the percent-encoding of
exactly this value, so they are represented by it. -/
structure Item where
  name : String
  imagePath : AbsPath
  caption : String
  tags : Tags

/-- The comparison on items induced by the sort key `item["name"].lower()`. -/
def nameLe (a b : Item) : Bool :=
  lexLe (a.name.data.map Char.toLower) (b.name.data.map Char.toLower)

/-- `items.sort(key=lambda item: item["name"].lower())` — a stable sort by
the lower-cased name (Python's sort is stable, and any stable sort of the
same list under the same total preorder produces the same sequence). -/
def sortByName (items : List Item) : List Item :=
  items.insertionSort (fun a b => nameLe a b = true)

/-! ## Caption and tag resolution (`load_items`, both modes) -/

/-- The caption logic shared by both modes:
`caption = path.read_text().strip() if path.exists() else ""`.
There is no sandbox check on the caption path; a read error on an existing
file propagates. -/
def readCaptionAt (resolve : AbsPath → AbsPath) (fs : FS) (cpath : AbsPath) :
    Except PyErr String :=
  if fs.existsP (resolve cpath) then
    match readText fs (resolve cpath) with
    | .error e => .error e
    | .ok s => .ok (pyStrip s)
  else .ok ""

/-- Scan-mode side-car tag resolution for image `path`: parse
`f"{path}.json"` when it exists; only `json.JSONDecodeError` is caught, so a
document that is not an object, or a truthy non-string tag field, raises out
of `load_items`. -/
def scanTags (resolve : AbsPath → AbsPath) (jsonLoads : String → Except Unit JVal)
    (fs : FS) (path : AbsPath) : Except PyErr Tags :=
  let json_path := appendLastAbs path ".json"
  if fs.existsP (resolve json_path) then
    match readText fs (resolve json_path) with
    | .error e => .error e
    | .ok raw =>
      match jsonLoads raw with
      | .error _ => .ok emptyTags
      | .ok meta =>
        match metaGet meta "tag_string_artist" with
        | .error e => .error e
        | .ok av =>
          match split_tags av with
          | .error e => .error e
          | .ok a =>
            match metaGet meta "tag_string_copyright" with
            | .error e => .error e
            | .ok cv =>
              match split_tags cv with
              | .error e => .error e
              | .ok c =>
                match metaGet meta "tag_string_character" with
                | .error e => .error e
                | .ok chv =>
                  match split_tags chv with
                  | .error e => .error e
                  | .ok ch =>
                    match metaGet meta "tag_string_general" with
                    | .error e => .error e
                    | .ok gv =>
                      match split_tags gv with
                      | .error e => .error e
                      | .ok g =>
                        .ok ⟨.jarr (a.map .jstr), .jarr (c.map .jstr),
                             .jarr (ch.map .jstr), .jarr (g.map .jstr)⟩
  else .ok emptyTags

/-! ## Index builder, scan mode (`load_items`, fallback branch) -/

/-- One iteration of the `root.rglob("*")` loop body for entry `path`:
extension filter, sandbox check, caption, side-car tags.  `.ok none` is the
loop's `continue`; a raised error aborts `load_items`. -/
def processScanEntry (resolve : AbsPath → AbsPath)
    (jsonLoads : String → Except Unit JVal) (fs : FS) (root : AbsPath)
    (path : AbsPath) : Except PyErr (Option Item) :=
  if ¬ (IMAGE_EXTS.contains (pyLower (pySuffix (lastName path)))) then .ok none
  else
    match safe_relative resolve root path with
    | none => .ok none
    | some rel =>
      match readCaptionAt resolve fs (appendLastAbs path ".caption.txt") with
      | .error e => .error e
      | .ok caption =>
        match scanTags resolve jsonLoads fs path with
        | .error e => .error e
        | .ok tags => .ok (some ⟨lastName path, rel, caption, tags⟩)

/-- `root.rglob("*")`: every stored node strictly below the root, in the
snapshot's enumeration order (`pathlib` globbing does match dot-files, so the
`.thumbs`/`.display` trees are included). -/
def startsWithSegs : AbsPath → AbsPath → Bool
  | [], _ => true
  | _ :: _, [] => false
  | r :: rs, t :: ts => r = t && startsWithSegs rs ts

/-- The enumeration the scan-mode `for` loop runs over. -/
def scanEnum (fs : FS) (root : AbsPath) : List (AbsPath × FNode) :=
  fs.nodes.filter (fun e => startsWithSegs root e.1 && decide (root.length < e.1.length))

/-- The scan-mode loop: the first component is the accumulated (unsorted)
item list or the propagated error, the second the arguments of the
`progress` calls made so far — `progress(idx)` fires after an item is
appended when the 1-based enumeration index is a multiple of 500. -/
def buildScan (resolve : AbsPath → AbsPath) (jsonLoads : String → Except Unit JVal)
    (fs : FS) (root : AbsPath) :
    List (AbsPath × FNode) → Nat → Except PyErr (List Item) × List Nat
  | [], _ => (.ok [], [])
  | (p, _) :: rest, idx =>
      match processScanEntry resolve jsonLoads fs root p with
      | .error e => (.error e, [])
      | .ok none => buildScan resolve jsonLoads fs root rest (idx + 1)
      | .ok (some it) =>
          let next := buildScan resolve jsonLoads fs root rest (idx + 1)
          (next.1.map (fun l => it :: l),
           if idx % 500 = 0 then idx :: next.2 else next.2)

/-- Scan-mode `load_items(root, progress=progress)`: run the loop from index
1 over the recursive enumeration, then sort by lower-cased name. -/
def load_items_scan (resolve : AbsPath → AbsPath)
    (jsonLoads : String → Except Unit JVal) (fs : FS) (root : AbsPath) :
    Except PyErr (List Item) × List Nat :=
  let r := buildScan resolve jsonLoads fs root (scanEnum fs root) 1
  (r.1.map sortByName, r.2)

/-- The Item Store's `scanned` field once the build has finished: the last
value the `progress` closure stored, or the initial 0. -/
def finalScanned (progressCalls : List Nat) : Nat :=
  (progressCalls.getLast?).getD 0

/-! ## Index builder, manifest mode (`load_items`, indexed branch) -/

/-- One manifest line: strip; skip if blank; parse, skipping only
`json.JSONDecodeError`; resolve `image_path` against the root; sandbox and
existence checks; caption via `caption_path`; tag slots straight off the
row.  `.ok none` is `continue`; raised errors abort `load_items`. -/
def processLine (resolve : AbsPath → AbsPath)
    (jsonLoads : String → Except Unit JVal) (fs : FS) (root : AbsPath)
    (line : String) : Except PyErr (Option Item) :=
  let line := pyStrip line
  if line = "" then .ok none
  else
    match jsonLoads line with
    | .error _ => .ok none
    | .ok row =>
      match rowGet row "image_path" (.jstr "") with
      | .error e => .error e
      | .ok ipv =>
        match asStr ipv with
        | .error e => .error e
        | .ok ips =>
          let img_path := pyJoin root (parsePath ips)
          match safe_relative resolve root img_path with
          | none => .ok none
          | some rel =>
            if ¬ (fs.existsP (resolve img_path)) then .ok none
            else
              match rowGet row "caption_path" (.jstr "") with
              | .error e => .error e
              | .ok cpv =>
                match asStr cpv with
                | .error e => .error e
                | .ok cps =>
                  match readCaptionAt resolve fs (pyJoin root (parsePath cps)) with
                  | .error e => .error e
                  | .ok caption =>
                    match rowGet row "artist" (.jarr []) with
                    | .error e => .error e
                    | .ok a =>
                      match rowGet row "copyright" (.jarr []) with
                      | .error e => .error e
                      | .ok c =>
                        match rowGet row "character" (.jarr []) with
                        | .error e => .error e
                        | .ok ch =>
                          match rowGet row "general" (.jarr []) with
                          | .error e => .error e
                          | .ok g =>
                            .ok (some ⟨lastName img_path, rel, caption, ⟨a, c, ch, g⟩⟩)

/-- The manifest-mode line loop: accumulated items (or the propagated error)
plus the arguments of the `progress` calls — `progress(idx)` fires after an
item is appended when the 1-based line index is a multiple of 500. -/
def buildManifest (resolve : AbsPath → AbsPath)
    (jsonLoads : String → Except Unit JVal) (fs : FS) (root : AbsPath) :
    List String → Nat → Except PyErr (List Item) × List Nat
  | [], _ => (.ok [], [])
  | l :: ls, idx =>
      match processLine resolve jsonLoads fs root l with
      | .error e => (.error e, [])
      | .ok none => buildManifest resolve jsonLoads fs root ls (idx + 1)
      | .ok (some it) =>
          let next := buildManifest resolve jsonLoads fs root ls (idx + 1)
          (next.1.map (fun rest => it :: rest),
           if idx % 500 = 0 then idx :: next.2 else next.2)

/-- Manifest-mode `load_items(root, index_path, progress=progress)`: process
the manifest's lines from index 1, then sort by lower-cased name. -/
def load_items_manifest (resolve : AbsPath → AbsPath)
    (jsonLoads : String → Except Unit JVal) (fs : FS) (root : AbsPath)
    (lines : List String) : Except PyErr (List Item) × List Nat :=
  let r := buildManifest resolve jsonLoads fs root lines 1
  (r.1.map sortByName, r.2)

/-! ## Derivative cache (`build_resized`) -/

/-- Outcome of one run of the PIL open/transpose/flatten/thumbnail/save
pipeline, an external collaborator: it can succeed, fail before anything is
written to the target (open, decode or transform error), or fail while
`image.save(target_path, ...)` is part-way through writing — the code writes
straight to the cache path, so that last case leaves a partial file there. -/
inductive PipeRes
  | succeeds
  | failsEarly
  | failsMidWrite
deriving DecidableEq, Repr

/-- Result of `build_resized`: the returned boolean, the filesystem
afterwards, and how many times `Image.open(source_path)` ran. -/
structure BRResult where
  ret : Bool
  fs : FS
  opens : Nat

/-- `build_resized(source_path, target_path, max_size, quality)`: early
return on an existing target or without PIL; otherwise the pipeline runs
inside a `try` whose `except Exception` turns any failure into `False`.  On
success the parents are created and the encoded file is written at the
target (its bytes abstracted to `""`); a mid-write failure leaves a partial
file at the target. -/
def build_resized (pilAvailable : Bool) (pipe : PipeRes) (fs : FS)
    (source_path target_path : AbsPath) : BRResult :=
  if fs.existsP target_path then ⟨false, fs, 0⟩
  else if ¬ pilAvailable then ⟨false, fs, 0⟩
  else
    match pipe with
    | .succeeds =>
        ⟨true, (fs.mkParents target_path).write target_path (.fileN (.ok "")), 1⟩
    | .failsEarly => ⟨false, fs, 1⟩
    | .failsMidWrite =>
        ⟨false, (fs.mkParents target_path).write target_path .partF, 1⟩

/-! ## Request handler, `/thumbs/` branch (`ViewerHandler.do_GET`) -/

/-- What the handler sends back: a 200 streaming the file at a path with a
`Cache-Control` lifetime, or an error status. -/
inductive HResp
  | okFile (path : AbsPath) (cacheSeconds : Nat)
  | errResp (code : Nat)
deriving DecidableEq, Repr

/-- `send_file(path, cache_seconds)`: 404 unless the path exists, else a 200
serving it. -/
def send_file (fs : FS) (p : AbsPath) (cacheSeconds : Nat) : HResp :=
  if fs.existsP p then .okFile p cacheSeconds else .errResp 404

/-- The `/thumbs/` branch of `do_GET`, after URL-unquoting: suffix check
(404), recover the source by stripping `THUMB_SUFFIX`, resolve it under the
root, sandbox check (403), source-existence check (404), then
`build_resized` followed by serving the thumbnail if it now exists, else the
original file.  Returns the response and the filesystem after the
(potentially writing) `build_resized` call. -/
def handleThumbs (resolve : AbsPath → AbsPath) (pilAvailable : Bool)
    (pipe : PipeRes) (fs : FS) (root : AbsPath) (rel_thumb : String) :
    HResp × FS :=
  if ¬ (pyEndsWith rel_thumb THUMB_SUFFIX) then (.errResp 404, fs)
  else
    let rel_src := pyDropRight rel_thumb THUMB_SUFFIX.length
    let src_path := resolve (pyJoin root (parsePath rel_src))
    if (safe_relative resolve root src_path).isNone then (.errResp 403, fs)
    else if ¬ (fs.existsP src_path) then (.errResp 404, fs)
    else
      let thumb_path := make_thumb_path root (parsePath rel_src)
      let r := build_resized pilAvailable pipe fs src_path thumb_path
      if r.fs.existsP thumb_path then (send_file r.fs thumb_path 86400, r.fs)
      else (send_file r.fs src_path 3600, r.fs)

/-! ## Concrete example inputs used by witnesses and counterexamples -/

/-- A root with exactly one image file: the scan emits one item. -/
def fsOneImage : FS := ⟨[(["r"], .dirN), (["r", "a.jpg"], .fileN (.ok "x"))]⟩

/-- A JSON parser that is never consulted successfully (no side-cars exist in
the example filesystems that use it). -/
def jlNever : String → Except Unit JVal := fun _ => .error ()

/-- A root holding two images whose enumeration order (`B.jpg` before
`a.jpg`) differs from the case-insensitive name order. -/
def fsTwoImages : FS :=
  ⟨[(["r"], .dirN), (["r", "B.jpg"], .fileN (.ok "x")),
    (["r", "a.jpg"], .fileN (.ok "x"))]⟩

/-- A root holding a subdirectory, and a manifest row pointing `image_path`
at it (with a `caption_path` that does not exist, so the caption stays
empty). -/
def fsRootWithDir : FS := ⟨[(["r"], .dirN), (["r", "sub"], .dirN)]⟩

/-- The single-row manifest whose `image_path` names the subdirectory. -/
def jlDirRow : String → Except Unit JVal := fun _ =>
  .ok (.jobj [("image_path", .jstr "sub"), ("caption_path", .jstr "no.txt")])

/-- A dataset root plus a readable file *outside* it. -/
def fsSecret : FS :=
  ⟨[(["r"], .dirN), (["r", "a.jpg"], .fileN (.ok "x")),
    (["secret", "c.txt"], .fileN (.ok " hi "))]⟩

/-- A manifest row whose `caption_path` is an absolute path outside the
root. -/
def jlCapRow : String → Except Unit JVal := fun _ =>
  .ok (.jobj [("image_path", .jstr "a.jpg"), ("caption_path", .jstr "/secret/c.txt")])

/-- A root with two images, the first of which has a side-car whose JSON
decodes to an object carrying a numeric (wrong-typed) tag field. -/
def fsBadSidecar : FS :=
  ⟨[(["r"], .dirN), (["r", "a.jpg"], .fileN (.ok "x")),
    (["r", "a.jpg.json"], .fileN (.ok "J")),
    (["r", "b.jpg"], .fileN (.ok "x"))]⟩

/-- A parser mapping the side-car text to `{"tag_string_artist": 5}`. -/
def jlWrongType : String → Except Unit JVal := fun s =>
  if s = "J" then .ok (.jobj [("tag_string_artist", .jnum 5)]) else .error ()

/-- A root holding one source image and an already-generated thumbnail cache
file under `.thumbs`. -/
def fsWithCache : FS :=
  ⟨[(["r"], .dirN), (["r", "s.png"], .fileN (.ok "x")),
    (["r", ".thumbs"], .dirN),
    (["r", ".thumbs", "s.png.thumb.jpg"], .fileN (.ok ""))]⟩

/-! ## Helper lemmas -/

theorem relative_to_eq_some_iff (t r s : AbsPath) :
    relative_to t r = some s ↔ t = r ++ s := by
  induction r generalizing t with
  | nil => simp [relative_to]
  | cons x xs ih =>
    cases t with
    | nil => simp [relative_to]
    | cons a as =>
      by_cases h : a = x
      · subst h
        simp [relative_to, ih]
      · simp [relative_to, h]

theorem relative_to_append (r s : AbsPath) : relative_to (r ++ s) r = some s :=
  (relative_to_eq_some_iff _ _ _).mpr rfl

theorem relative_to_isSome_iff (t r : AbsPath) :
    (relative_to t r).isSome = true ↔ ∃ s, t = r ++ s := by
  constructor
  · intro h
    rcases Option.isSome_iff_exists.mp h with ⟨s, hs⟩
    exact ⟨s, (relative_to_eq_some_iff _ _ _).mp hs⟩
  · rintro ⟨s, rfl⟩
    rw [relative_to_append]
    rfl

theorem lookupN_upsertN_self (l : List (AbsPath × FNode)) (p : AbsPath) (nd : FNode) :
    lookupN (upsertN l p nd) p = some nd := by
  induction l with
  | nil => simp [upsertN, lookupN]
  | cons hd tl ih =>
    obtain ⟨q, m⟩ := hd
    by_cases h : q = p <;> simp [upsertN, lookupN, h, ih]

theorem lookupN_mem {l : List (AbsPath × FNode)} {p : AbsPath} {nd : FNode}
    (h : lookupN l p = some nd) : (p, nd) ∈ l := by
  induction l with
  | nil => simp [lookupN] at h
  | cons hd tl ih =>
    obtain ⟨q, m⟩ := hd
    by_cases hq : q = p
    · subst hq
      simp [lookupN] at h
      simp [h]
    · simp [lookupN, hq] at h
      exact List.mem_cons_of_mem _ (ih h)

theorem startsWithSegs_append (r s : AbsPath) : startsWithSegs r (r ++ s) = true := by
  induction r with
  | nil => simp [startsWithSegs]
  | cons x xs ih => simp [startsWithSegs, ih]

/-! ## C1 -/

/-- C1: for every symlink table, fuel, root `R` and candidate `P`, the path
sandbox `safe_relative` accepts `P` exactly when the canonicalization of `P`
(symlinks followed, `..` segments normalized, via `pyResolve`) is the
canonical root itself or a strict descendant of it; every candidate whose
canonical form lies outside the canonical root is rejected with the `None`
rejection value. -/
theorem safe_relative_accepts_iff_descendant
    (links : List (AbsPath × AbsPath)) (fuel : Nat) (root target : AbsPath) :
    (safe_relative (pyResolve links fuel) root target).isSome = true ↔
      (pyResolve links fuel target = pyResolve links fuel root ∨
        ∃ s, s ≠ [] ∧ pyResolve links fuel target = pyResolve links fuel root ++ s) := by
  rw [safe_relative, relative_to_isSome_iff]
  constructor
  · rintro ⟨s, hs⟩
    cases s with
    | nil => left; simpa using hs
    | cons a as => right; exact ⟨a :: as, by simp, hs⟩
  · rintro (h | ⟨s, _, hs⟩)
    · exact ⟨[], by simpa using h⟩
    · exact ⟨s, hs⟩

/-! ## C2 -/

theorem buildScan_progress_lb (resolve : AbsPath → AbsPath)
    (jl : String → Except Unit JVal) (fs : FS) (root : AbsPath) :
    ∀ (enum : List (AbsPath × FNode)) (idx : Nat),
      ∀ x ∈ (buildScan resolve jl fs root enum idx).2, idx ≤ x := by
  intro enum
  induction enum with
  | nil => intro idx x hx; simp [buildScan] at hx
  | cons e rest ih =>
    obtain ⟨p, nd⟩ := e
    intro idx x hx
    rw [buildScan] at hx
    rcases hproc : processScanEntry resolve jl fs root p with _ | o
    · rw [hproc] at hx
      simp at hx
    · rw [hproc] at hx
      cases o with
      | none =>
        simp only at hx
        exact Nat.le_of_succ_le (ih (idx + 1) x hx)
      | some it =>
        simp only at hx
        by_cases hm : idx % 500 = 0
        · rw [if_pos hm] at hx
          rcases List.mem_cons.mp hx with rfl | hx'
          · exact Nat.le_refl x
          · exact Nat.le_of_succ_le (ih (idx + 1) x hx')
        · rw [if_neg hm] at hx
          exact Nat.le_of_succ_le (ih (idx + 1) x hx)

theorem buildScan_progress_increasing (resolve : AbsPath → AbsPath)
    (jl : String → Except Unit JVal) (fs : FS) (root : AbsPath) :
    ∀ (enum : List (AbsPath × FNode)) (idx : Nat),
      (buildScan resolve jl fs root enum idx).2.Pairwise (· < ·) := by
  intro enum
  induction enum with
  | nil => intro idx; simp [buildScan]
  | cons e rest ih =>
    obtain ⟨p, nd⟩ := e
    intro idx
    rw [buildScan]
    rcases hproc : processScanEntry resolve jl fs root p with _ | o
    · simp
    · cases o with
      | none => exact ih (idx + 1)
      | some it =>
        simp only
        by_cases hm : idx % 500 = 0
        · rw [if_pos hm]
          refine List.Pairwise.cons ?_ (ih (idx + 1))
          intro x hx
          exact Nat.lt_of_succ_le (buildScan_progress_lb resolve jl fs root rest (idx + 1) x hx)
        · rw [if_neg hm]
          exact ih (idx + 1)

theorem buildManifest_progress_lb (resolve : AbsPath → AbsPath)
    (jl : String → Except Unit JVal) (fs : FS) (root : AbsPath) :
    ∀ (lines : List String) (idx : Nat),
      ∀ x ∈ (buildManifest resolve jl fs root lines idx).2, idx ≤ x := by
  intro lines
  induction lines with
  | nil => intro idx x hx; simp [buildManifest] at hx
  | cons l ls ih =>
    intro idx x hx
    rw [buildManifest] at hx
    rcases hproc : processLine resolve jl fs root l with _ | o
    · rw [hproc] at hx
      simp at hx
    · rw [hproc] at hx
      cases o with
      | none =>
        simp only at hx
        exact Nat.le_of_succ_le (ih (idx + 1) x hx)
      | some it =>
        simp only at hx
        by_cases hm : idx % 500 = 0
        · rw [if_pos hm] at hx
          rcases List.mem_cons.mp hx with rfl | hx'
          · exact Nat.le_refl x
          · exact Nat.le_of_succ_le (ih (idx + 1) x hx')
        · rw [if_neg hm] at hx
          exact Nat.le_of_succ_le (ih (idx + 1) x hx)

theorem buildManifest_progress_increasing (resolve : AbsPath → AbsPath)
    (jl : String → Except Unit JVal) (fs : FS) (root : AbsPath) :
    ∀ (lines : List String) (idx : Nat),
      (buildManifest resolve jl fs root lines idx).2.Pairwise (· < ·) := by
  intro lines
  induction lines with
  | nil => intro idx; simp [buildManifest]
  | cons l ls ih =>
    intro idx
    rw [buildManifest]
    rcases hproc : processLine resolve jl fs root l with _ | o
    · simp
    · cases o with
      | none => exact ih (idx + 1)
      | some it =>
        simp only
        by_cases hm : idx % 500 = 0
        · rw [if_pos hm]
          refine List.Pairwise.cons ?_ (ih (idx + 1))
          intro x hx
          exact Nat.lt_of_succ_le (buildManifest_progress_lb resolve jl fs root ls (idx + 1) x hx)
        · rw [if_neg hm]
          exact ih (idx + 1)

/-- C2 (amended): over a single background build, in either mode, the
sequence of values the progress callback stores into the Item Store's
`scanned` counter is strictly increasing, hence every stored value is at
least every previously stored one.  (The second half of the original claim —
that `scanned` equals the final item count once `ready` is true in scan mode
— fails; see the counterexample.) -/
theorem scanned_values_monotone (resolve : AbsPath → AbsPath)
    (jl : String → Except Unit JVal) (fs : FS) (root : AbsPath)
    (lines : List String) :
    (load_items_scan resolve jl fs root).2.Pairwise (· < ·) ∧
      (load_items_manifest resolve jl fs root lines).2.Pairwise (· < ·) :=
  ⟨buildScan_progress_increasing resolve jl fs root (scanEnum fs root) 1,
    buildManifest_progress_increasing resolve jl fs root lines 1⟩

/-- C2 counterexample: on a root holding a single image, the build finishes
with one published item while the progress callback never fired, so at
`ready` the store's `scanned` is 0, not the final item count 1. -/
theorem scanned_ne_item_count_counterexample :
    (load_items_scan (fun p => p) jlNever fsOneImage ["r"]).1 =
        .ok [⟨"a.jpg", ["a.jpg"], "", emptyTags⟩] ∧
      finalScanned (load_items_scan (fun p => p) jlNever fsOneImage ["r"]).2 = 0 ∧
      (0 : Nat) ≠ 1 :=
  ⟨rfl, rfl, by decide⟩

/-! ## C3 -/

/-- C3 (amended): every failing run of the derivative pipeline is absorbed —
`build_resized` returns the unavailability value `False` rather than raising —
but the encode writes straight to the cache path, not to a temporary renamed
into place: a mid-write failure leaves a partial file at the cache path, and
that partial file satisfies the existence check a later call uses as its
cache-hit test. -/
theorem build_resized_failure_behavior (pil : Bool) (pipe : PipeRes) (fs : FS)
    (src tgt : AbsPath) (h : pipe ≠ PipeRes.succeeds) :
    (build_resized pil pipe fs src tgt).ret = false ∧
      (pipe = .failsEarly → (build_resized pil pipe fs src tgt).fs = fs) ∧
      (pipe = .failsMidWrite → fs.existsP tgt = false → pil = true →
        ((build_resized pil pipe fs src tgt).fs.lookup tgt = some .partF ∧
          (build_resized pil pipe fs src tgt).fs.existsP tgt = true)) := by
  refine ⟨?_, ?_, ?_⟩
  · cases pipe with
    | succeeds => exact absurd rfl h
    | failsEarly =>
      rw [build_resized]
      by_cases he : fs.existsP tgt = true <;> by_cases hp : pil = true <;>
        simp [he, hp]
    | failsMidWrite =>
      rw [build_resized]
      by_cases he : fs.existsP tgt = true <;> by_cases hp : pil = true <;>
        simp [he, hp]
  · rintro rfl
    rw [build_resized]
    by_cases he : fs.existsP tgt = true <;> by_cases hp : pil = true <;>
      simp [he, hp]
  · rintro rfl he hp
    subst hp
    rw [build_resized]
    simp only [he, Bool.false_eq_true, if_false, not_true, if_neg, ite_false]
    constructor
    · show lookupN (upsertN (FS.mkParents fs tgt).nodes tgt FNode.partF) tgt = some FNode.partF
      exact lookupN_upsertN_self _ _ _
    · show (lookupN (upsertN (FS.mkParents fs tgt).nodes tgt FNode.partF) tgt).isSome = true
      rw [lookupN_upsertN_self]
      rfl

/-- Witness for C3: the failure behavior at a concrete filesystem. -/
theorem build_resized_failure_behavior_witness :
    (build_resized true .failsMidWrite fsOneImage ["r", "a.jpg"]
          ["r", ".thumbs", "a.jpg.thumb.jpg"]).ret = false ∧
      (PipeRes.failsMidWrite = PipeRes.failsEarly →
        (build_resized true .failsMidWrite fsOneImage ["r", "a.jpg"]
            ["r", ".thumbs", "a.jpg.thumb.jpg"]).fs = fsOneImage) ∧
      (PipeRes.failsMidWrite = PipeRes.failsMidWrite →
        fsOneImage.existsP ["r", ".thumbs", "a.jpg.thumb.jpg"] = false → true = true →
        ((build_resized true .failsMidWrite fsOneImage ["r", "a.jpg"]
              ["r", ".thumbs", "a.jpg.thumb.jpg"]).fs.lookup
            ["r", ".thumbs", "a.jpg.thumb.jpg"] = some .partF ∧
          (build_resized true .failsMidWrite fsOneImage ["r", "a.jpg"]
              ["r", ".thumbs", "a.jpg.thumb.jpg"]).fs.existsP
            ["r", ".thumbs", "a.jpg.thumb.jpg"] = true)) :=
  build_resized_failure_behavior true .failsMidWrite fsOneImage ["r", "a.jpg"]
    ["r", ".thumbs", "a.jpg.thumb.jpg"] (by decide)

/-- C3 counterexample: after a mid-write failure a partial file sits at the
cache path, so the claim's "no partially written file is left that a later
existence check would treat as complete" is violated: the very next call
with the same arguments takes the cache-hit early return on that partial
file (returning `false` without re-encoding), and the handler's
`thumb_path.exists()` check would serve it. -/
theorem partial_cache_file_counterexample :
    (build_resized true .failsMidWrite fsOneImage ["r", "a.jpg"]
          ["r", ".thumbs", "a.jpg.thumb.jpg"]).fs.lookup
        ["r", ".thumbs", "a.jpg.thumb.jpg"] = some .partF ∧
      (build_resized true .succeeds
          ((build_resized true .failsMidWrite fsOneImage ["r", "a.jpg"]
              ["r", ".thumbs", "a.jpg.thumb.jpg"]).fs) ["r", "a.jpg"]
          ["r", ".thumbs", "a.jpg.thumb.jpg"]) =
        ⟨false,
          (build_resized true .failsMidWrite fsOneImage ["r", "a.jpg"]
              ["r", ".thumbs", "a.jpg.thumb.jpg"]).fs, 0⟩ :=
  ⟨rfl, rfl⟩

/-! ## C9 -/

/-- C9: derivative materialization is idempotent.  When PIL is available and
a first `build_resized` call has written the cache file (it returns `True`),
any second call with the same target immediately observes the existing cache
file and returns `False` without touching the filesystem and without opening
or re-encoding the source (zero `Image.open` runs), whatever the pipeline
would have done. -/
theorem build_resized_idempotent (pipe2 : PipeRes) (fs : FS) (src tgt : AbsPath)
    (h0 : fs.existsP tgt = false) :
    (build_resized true .succeeds fs src tgt).ret = true ∧
      build_resized true pipe2 (build_resized true .succeeds fs src tgt).fs src tgt =
        ⟨false, (build_resized true .succeeds fs src tgt).fs, 0⟩ := by
  have hfs : (build_resized true .succeeds fs src tgt).fs =
      (fs.mkParents tgt).write tgt (.fileN (.ok "")) := by
    rw [build_resized]
    simp [h0]
  have hret : (build_resized true .succeeds fs src tgt).ret = true := by
    rw [build_resized]
    simp [h0]
  have hex : ((build_resized true .succeeds fs src tgt).fs).existsP tgt = true := by
    rw [hfs]
    show (lookupN (upsertN (FS.mkParents fs tgt).nodes tgt _) tgt).isSome = true
    rw [lookupN_upsertN_self]
    rfl
  refine ⟨hret, ?_⟩
  generalize (build_resized true PipeRes.succeeds fs src tgt).fs = fs1 at hex ⊢
  rw [build_resized.eq_def, if_pos hex]

/-- Witness for C9 at a concrete filesystem and target. -/
theorem build_resized_idempotent_witness :
    (build_resized true .succeeds fsOneImage ["r", "a.jpg"]
          ["r", ".thumbs", "a.jpg.thumb.jpg"]).ret = true ∧
      build_resized true .succeeds
          (build_resized true .succeeds fsOneImage ["r", "a.jpg"]
              ["r", ".thumbs", "a.jpg.thumb.jpg"]).fs ["r", "a.jpg"]
          ["r", ".thumbs", "a.jpg.thumb.jpg"] =
        ⟨false,
          (build_resized true .succeeds fsOneImage ["r", "a.jpg"]
              ["r", ".thumbs", "a.jpg.thumb.jpg"]).fs, 0⟩ :=
  build_resized_idempotent .succeeds fsOneImage ["r", "a.jpg"]
    ["r", ".thumbs", "a.jpg.thumb.jpg"] rfl

/-! ## C6 -/

/-- Without PIL, `build_resized` is a no-op returning `False`. -/
theorem build_resized_no_pil (pipe : PipeRes) (fs : FS) (src tgt : AbsPath) :
    build_resized false pipe fs src tgt = ⟨false, fs, 0⟩ := by
  rw [build_resized.eq_def]
  by_cases he : fs.existsP tgt = true <;> simp [he]

/-- C6: when the image-processing capability is unavailable, a `/thumbs/`
request whose recovered source path passes the sandbox and exists never gets
a hard failure: the handler serves a file (the previously cached thumbnail
if one exists, else the original raw file). -/
theorem thumbs_no_pil_never_fails (resolve : AbsPath → AbsPath) (pipe : PipeRes)
    (fs : FS) (root : AbsPath) (rel_thumb : String)
    (hsuf : pyEndsWith rel_thumb THUMB_SUFFIX = true)
    (hsafe : (safe_relative resolve root
        (resolve (pyJoin root
          (parsePath (pyDropRight rel_thumb THUMB_SUFFIX.length))))).isSome = true)
    (hex : fs.existsP
        (resolve (pyJoin root
          (parsePath (pyDropRight rel_thumb THUMB_SUFFIX.length)))) = true) :
    ∀ code, (handleThumbs resolve false pipe fs root rel_thumb).1 ≠ HResp.errResp code := by
  intro code
  simp only [handleThumbs, build_resized_no_pil, send_file]
  split_ifs with h1 h2 h3 h4 h5 <;>
    simp_all [Option.isNone_iff_eq_none]

/-- Witness for C6: a concrete thumbnail request with PIL absent is served
from the original file. -/
theorem thumbs_no_pil_never_fails_witness :
    pyEndsWith "a.jpg.thumb.jpg" THUMB_SUFFIX = true ∧
      ∀ code,
        (handleThumbs (fun p => p) false .failsEarly fsOneImage ["r"]
            "a.jpg.thumb.jpg").1 ≠ HResp.errResp code :=
  ⟨by decide,
    thumbs_no_pil_never_fails (fun p => p) .failsEarly fsOneImage ["r"]
      "a.jpg.thumb.jpg" (by decide) (by decide) (by decide)⟩

/-! ## C8 -/

theorem lexLe_total (a b : List Char) : lexLe a b = true ∨ lexLe b a = true := by
  induction a generalizing b with
  | nil => left; rw [lexLe]
  | cons x xs ih =>
    cases b with
    | nil => right; rw [lexLe]
    | cons y ys =>
      rw [lexLe, lexLe]
      by_cases h1 : x.toNat < y.toNat
      · left; simp [h1]
      · by_cases h2 : y.toNat < x.toNat
        · right; simp [h1, h2]
        · simpa [h1, h2] using ih ys

theorem lexLe_trans (a b c : List Char) (hab : lexLe a b = true)
    (hbc : lexLe b c = true) : lexLe a c = true := by
  induction a generalizing b c with
  | nil => rw [lexLe]
  | cons x xs ih =>
    cases b with
    | nil => rw [lexLe] at hab; exact absurd hab (by simp)
    | cons y ys =>
      cases c with
      | nil => rw [lexLe] at hbc; exact absurd hbc (by simp)
      | cons z zs =>
        rw [lexLe] at hab hbc ⊢
        by_cases h1 : x.toNat < y.toNat
        · by_cases h2 : y.toNat < z.toNat
          · rw [if_pos (by omega)]
          · by_cases h3 : z.toNat < y.toNat
            · rw [if_neg h2, if_pos h3] at hbc
              exact absurd hbc (by simp)
            · rw [if_pos (by omega)]
        · by_cases h1' : y.toNat < x.toNat
          · rw [if_neg h1, if_pos h1'] at hab
            exact absurd hab (by simp)
          · rw [if_neg h1, if_neg h1'] at hab
            by_cases h2 : y.toNat < z.toNat
            · rw [if_pos (by omega)]
            · by_cases h3 : z.toNat < y.toNat
              · rw [if_neg h2, if_pos h3] at hbc
                exact absurd hbc (by simp)
              · rw [if_neg h2, if_neg h3] at hbc
                rw [if_neg (by omega), if_neg (by omega)]
                exact ih ys zs hab hbc

theorem nameLe_total (a b : Item) : nameLe a b = true ∨ nameLe b a = true :=
  lexLe_total _ _

theorem nameLe_trans (a b c : Item) (hab : nameLe a b = true)
    (hbc : nameLe b c = true) : nameLe a c = true :=
  lexLe_trans _ _ _ hab hbc

theorem sortByName_sorted (l : List Item) :
    (sortByName l).Sorted (fun a b => nameLe a b = true) := by
  haveI : IsTotal Item (fun a b => nameLe a b = true) := ⟨nameLe_total⟩
  haveI : IsTrans Item (fun a b => nameLe a b = true) := ⟨nameLe_trans⟩
  exact List.sorted_insertionSort _ l

/-- C8: every successful scan-mode build returns a sequence sorted by the
case-insensitively-compared item name, under a comparison that is total and
transitive (a total preorder); and the builder is a pure function of the
filesystem snapshot and manifest contents, so re-running it on unchanged
input yields the identical sequence. -/
theorem index_sorted_and_deterministic (resolve : AbsPath → AbsPath)
    (jl : String → Except Unit JVal) (fs : FS) (root : AbsPath) (its : List Item)
    (h : (load_items_scan resolve jl fs root).1 = .ok its) :
    its.Sorted (fun a b => nameLe a b = true) ∧
      (∀ a b, nameLe a b = true ∨ nameLe b a = true) ∧
      load_items_scan resolve jl fs root = load_items_scan resolve jl fs root := by
  refine ⟨?_, nameLe_total, rfl⟩
  rw [load_items_scan] at h
  simp only at h
  rcases hr : (buildScan resolve jl fs root (scanEnum fs root) 1).1 with e | l
  · rw [hr] at h; simp [Except.map] at h
  · rw [hr] at h
    simp only [Except.map] at h
    cases h
    exact sortByName_sorted l

/-- Witness for C8: the two-image scan, enumerated `B.jpg` first, comes back
sorted `a.jpg` before `B.jpg`. -/
theorem index_sorted_and_deterministic_witness :
    (load_items_scan (fun p => p) jlNever fsTwoImages ["r"]).1 =
        .ok [⟨"a.jpg", ["a.jpg"], "", emptyTags⟩, ⟨"B.jpg", ["B.jpg"], "", emptyTags⟩] ∧
      List.Sorted (fun a b => nameLe a b = true)
        [(⟨"a.jpg", ["a.jpg"], "", emptyTags⟩ : Item), ⟨"B.jpg", ["B.jpg"], "", emptyTags⟩] :=
  ⟨rfl,
    (index_sorted_and_deterministic (fun p => p) jlNever fsTwoImages ["r"]
      [⟨"a.jpg", ["a.jpg"], "", emptyTags⟩, ⟨"B.jpg", ["B.jpg"], "", emptyTags⟩] rfl).1⟩

/-! ## C4 -/

/-- C4 (amended): every item the manifest loop emits has an `imagePath`
under which the filesystem holds *some* entry below the canonical root — but
only existence is checked (`Path.exists()`), not that the entry is a regular
file, so the entry may also be a directory (see the counterexample). -/
theorem manifest_item_source_exists (resolve : AbsPath → AbsPath)
    (jl : String → Except Unit JVal) (fs : FS) (root : AbsPath) (line : String)
    (it : Item) (h : processLine resolve jl fs root line = .ok (some it)) :
    fs.existsP (resolve root ++ it.imagePath) = true := by
  simp only [processLine] at h
  split at h
  · simp at h
  split at h
  · simp at h
  split at h
  · simp at h
  split at h
  · simp at h
  split at h
  · simp at h
  split at h
  · simp at h
  split at h
  · simp at h
  split at h
  · simp at h
  split at h
  · simp at h
  split at h
  · simp at h
  split at h
  · simp at h
  split at h
  · simp at h
  split at h
  · simp at h
  rename_i hblank x10 row heqjl x9 ipv heqip x8 ips heqis x7 rel heqsafe hexn
    x6 cpv heqcp x5 cps heqcs x4 cap heqcap x3 a heqa x2 c heqc x1 ch heqch x0 g heqg
  simp only [Except.ok.injEq, Option.some.injEq] at h
  subst h
  show fs.existsP (resolve root ++ rel) = true
  have himg : resolve (pyJoin root (parsePath ips)) = resolve root ++ rel := by
    rw [safe_relative] at heqsafe
    exact (relative_to_eq_some_iff _ _ _).mp heqsafe
  rw [← himg]
  exact not_not.mp hexn

/-- C4 counterexample: the row pointing at a directory is *not* dropped —
`Path.exists()` is true for directories — so the index surfaces an item whose
`imagePath` is not a regular file, contradicting the claim that any row whose
resolved source "does not exist as such a file" is dropped. -/
theorem manifest_directory_item_counterexample :
    processLine (fun p => p) jlDirRow fsRootWithDir ["r"] "L" =
        .ok (some ⟨"sub", ["sub"], "", ⟨.jarr [], .jarr [], .jarr [], .jarr []⟩⟩) ∧
      fsRootWithDir.lookup ["r", "sub"] = some .dirN :=
  ⟨rfl, rfl⟩

/-- Witness for C4 (amended) at the concrete directory-row example. -/
theorem manifest_item_source_exists_witness :
    fsRootWithDir.existsP (((fun (p : AbsPath) => p) ["r"]) ++
        (⟨"sub", ["sub"], "", ⟨.jarr [], .jarr [], .jarr [], .jarr []⟩⟩ : Item).imagePath) = true :=
  manifest_item_source_exists (fun p => p) jlDirRow fsRootWithDir ["r"] "L"
    ⟨"sub", ["sub"], "", ⟨.jarr [], .jarr [], .jarr [], .jarr []⟩⟩ rfl

/-! ## C5 -/

/-- C5 (amended): the caption logic used by manifest mode reads the caption
file whenever the (resolved) path exists — there is no sandbox check at all,
so paths outside the dataset root are read just the same; when the path does
not exist the caption is the empty string; and when the file exists but its
read fails, the error propagates out of the build instead of yielding an
empty caption. -/
theorem caption_read_semantics (resolve : AbsPath → AbsPath) (fs : FS)
    (cpath : AbsPath) :
    (fs.existsP (resolve cpath) = false → readCaptionAt resolve fs cpath = .ok "") ∧
      (∀ s, fs.existsP (resolve cpath) = true → readText fs (resolve cpath) = .ok s →
        readCaptionAt resolve fs cpath = .ok (pyStrip s)) ∧
      (∀ e, fs.existsP (resolve cpath) = true → readText fs (resolve cpath) = .error e →
        readCaptionAt resolve fs cpath = .error e) := by
  refine ⟨fun h => ?_, fun s h1 h2 => ?_, fun e h1 h2 => ?_⟩ <;>
    simp [readCaptionAt, *]

/-- C5 counterexample: the emitted item's caption is the trimmed contents of
`/secret/c.txt`, a file that is not under the root (`relative_to` rejects
it), contradicting "only when the path is resolvable under the dataset root"
and "no file outside the root is read". -/
theorem caption_outside_root_counterexample :
    processLine (fun p => p) jlCapRow fsSecret ["r"] "L" =
        .ok (some ⟨"a.jpg", ["a.jpg"], "hi", ⟨.jarr [], .jarr [], .jarr [], .jarr []⟩⟩) ∧
      relative_to ["secret", "c.txt"] ["r"] = none :=
  ⟨rfl, rfl⟩

/-- Witness for C5 (amended): the out-of-root caption file is read and
trimmed. -/
theorem caption_read_semantics_witness :
    readCaptionAt (fun p => p) fsSecret ["secret", "c.txt"] = .ok (pyStrip " hi ") :=
  (caption_read_semantics (fun p => p) fsSecret ["secret", "c.txt"]).2.1 " hi " rfl rfl

/-! ## C7 -/

/-- C7 (amended): in scan mode, a missing side-car JSON file, or one whose
contents fail JSON decoding, yields the all-empty tag slots without raising.
(Side-cars that decode to a non-object, or whose tag fields hold truthy
non-string values, instead raise `AttributeError` and abort the entire
build; see the counterexample.) -/
theorem sidecar_missing_or_undecodable_empty (resolve : AbsPath → AbsPath)
    (jl : String → Except Unit JVal) (fs : FS) (path : AbsPath) :
    (fs.existsP (resolve (appendLastAbs path ".json")) = false →
        scanTags resolve jl fs path = .ok emptyTags) ∧
      (∀ s, fs.existsP (resolve (appendLastAbs path ".json")) = true →
        readText fs (resolve (appendLastAbs path ".json")) = .ok s →
        jl s = .error () →
        scanTags resolve jl fs path = .ok emptyTags) := by
  constructor
  · intro h
    simp [scanTags, h]
  · intro s h1 h2 h3
    simp [scanTags, h1, h2, h3]

/-- C7 counterexample: the wrong-typed field makes `split_tags` raise
`AttributeError` (only `json.JSONDecodeError` is caught), aborting the whole
scan build — the item is not given empty tag slots, and the other image
(`b.jpg`) is never indexed either. -/
theorem sidecar_wrong_type_aborts_counterexample :
    (load_items_scan (fun p => p) jlWrongType fsBadSidecar ["r"]).1 =
      .error .attributeError :=
  rfl

/-- Witness for C7 (amended): a missing side-car and an undecodable side-car
both produce the empty tag slots. -/
theorem sidecar_missing_or_undecodable_empty_witness :
    scanTags (fun p => p) jlNever fsOneImage ["r", "a.jpg"] = .ok emptyTags ∧
      scanTags (fun p => p) jlNever fsBadSidecar ["r", "a.jpg"] = .ok emptyTags :=
  ⟨(sidecar_missing_or_undecodable_empty (fun p => p) jlNever fsOneImage
      ["r", "a.jpg"]).1 rfl,
    (sidecar_missing_or_undecodable_empty (fun p => p) jlNever fsBadSidecar
      ["r", "a.jpg"]).2 "J" rfl rfl rfl⟩

/-! ## C10 -/

theorem appendLastPosix_ne_nil (segs : List String) (suf : String) :
    appendLastPosix segs suf ≠ [] := by
  cases segs with
  | nil => simp [appendLastPosix]
  | cons s rest => cases rest <;> simp [appendLastPosix]

theorem appendLastPosix_getLast (segs : List String) (suf : String) :
    ∃ s0, (appendLastPosix segs suf).getLast? = some (s0 ++ suf) := by
  induction segs with
  | nil => exact ⟨".", rfl⟩
  | cons s rest ih =>
    cases rest with
    | nil => exact ⟨s, rfl⟩
    | cons r t =>
      obtain ⟨s0, hs0⟩ := ih
      refine ⟨s0, ?_⟩
      show (s :: appendLastPosix (r :: t) suf).getLast? = some (s0 ++ suf)
      rw [show (s :: appendLastPosix (r :: t) suf) = [s] ++ appendLastPosix (r :: t) suf from rfl,
        List.getLast?_append, hs0]
      rfl

theorem pySuffix_append_thumb (s : String) : pySuffix (s ++ THUMB_SUFFIX) = ".jpg" := by
  have h1 : (s ++ THUMB_SUFFIX).data
      = s.data ++ ['.', 't', 'h', 'u', 'm', 'b', '.', 'j', 'p', 'g'] := by
    rw [String.data_append]
    rfl
  rw [pySuffix, h1, List.reverse_append]
  have h2 : (['.', 't', 'h', 'u', 'm', 'b', '.', 'j', 'p', 'g'] : List Char).reverse
      = ['g', 'p', 'j', '.', 'b', 'm', 'u', 'h', 't', '.'] := by decide
  rw [h2]
  simp only [List.cons_append]
  rw [sufAux, if_neg (by decide)]
  rw [sufAux, if_neg (by decide)]
  rw [sufAux, if_neg (by decide)]
  rw [sufAux, if_pos rfl, if_neg (by decide), if_neg (by simp)]

theorem pySuffix_append_display (s : String) : pySuffix (s ++ DISPLAY_SUFFIX) = ".jpg" := by
  have h1 : (s ++ DISPLAY_SUFFIX).data
      = s.data ++ ['.', 'd', 'i', 's', 'p', 'l', 'a', 'y', '.', 'j', 'p', 'g'] := by
    rw [String.data_append]
    rfl
  rw [pySuffix, h1, List.reverse_append]
  have h2 : (['.', 'd', 'i', 's', 'p', 'l', 'a', 'y', '.', 'j', 'p', 'g'] : List Char).reverse
      = ['g', 'p', 'j', '.', 'y', 'a', 'l', 'p', 's', 'i', 'd', '.'] := by decide
  rw [h2]
  simp only [List.cons_append]
  rw [sufAux, if_neg (by decide)]
  rw [sufAux, if_neg (by decide)]
  rw [sufAux, if_neg (by decide)]
  rw [sufAux, if_pos rfl, if_neg (by decide), if_neg (by simp)]

theorem lastName_append_posix (root : AbsPath) (dir : String) (segs : List String)
    (suf : String) :
    ∃ s0, lastName (root ++ ([dir] ++ appendLastPosix segs suf)) = s0 ++ suf := by
  obtain ⟨s0, hs0⟩ := appendLastPosix_getLast segs suf
  refine ⟨s0, ?_⟩
  rw [lastName, List.getLast?_append, List.getLast?_append, hs0]
  rfl

theorem buildScan_ok_entries (resolve : AbsPath → AbsPath)
    (jl : String → Except Unit JVal) (fs : FS) (root : AbsPath) :
    ∀ (enum : List (AbsPath × FNode)) (idx : Nat) (l : List Item),
      (buildScan resolve jl fs root enum idx).1 = .ok l →
      ∀ p nd, (p, nd) ∈ enum →
        ∃ o, processScanEntry resolve jl fs root p = .ok o := by
  intro enum
  induction enum with
  | nil =>
    intro idx l _ p nd hmem
    simp at hmem
  | cons e rest ih =>
    obtain ⟨q, m⟩ := e
    intro idx l hok p nd hmem
    rw [buildScan] at hok
    split at hok
    · simp at hok
    · rcases List.mem_cons.mp hmem with heq | hmem'
      · obtain ⟨rfl, rfl⟩ := Prod.mk.injEq .. ▸ heq
        rename_i heqp
        exact ⟨none, heqp⟩
      · exact ih (idx + 1) l hok p nd hmem'
    · rename_i it heqp
      simp only at hok
      rcases List.mem_cons.mp hmem with heq | hmem'
      · obtain ⟨rfl, rfl⟩ := Prod.mk.injEq .. ▸ heq
        exact ⟨some it, heqp⟩
      · rcases hr : (buildScan resolve jl fs root rest (idx + 1)).1 with er | l' <;>
          rw [hr] at hok
        · simp [Except.map] at hok
        · exact ih (idx + 1) l' hr p nd hmem'

theorem buildScan_mem (resolve : AbsPath → AbsPath)
    (jl : String → Except Unit JVal) (fs : FS) (root : AbsPath) :
    ∀ (enum : List (AbsPath × FNode)) (idx : Nat) (l : List Item),
      (buildScan resolve jl fs root enum idx).1 = .ok l →
      ∀ p nd it, (p, nd) ∈ enum →
        processScanEntry resolve jl fs root p = .ok (some it) → it ∈ l := by
  intro enum
  induction enum with
  | nil =>
    intro idx l _ p nd it hmem
    simp at hmem
  | cons e rest ih =>
    obtain ⟨q, m⟩ := e
    intro idx l hok p nd it hmem hpit
    rw [buildScan] at hok
    split at hok
    · simp at hok
    · rename_i heqp
      rcases List.mem_cons.mp hmem with heq | hmem'
      · obtain ⟨rfl, rfl⟩ := Prod.mk.injEq .. ▸ heq
        rw [hpit] at heqp
        simp at heqp
      · exact ih (idx + 1) l hok p nd it hmem' hpit
    · rename_i it' heqp
      simp only at hok
      rcases hr : (buildScan resolve jl fs root rest (idx + 1)).1 with er | l' <;>
        rw [hr] at hok
      · simp [Except.map] at hok
      · simp only [Except.map, Except.ok.injEq] at hok
        subst hok
        rcases List.mem_cons.mp hmem with heq | hmem'
        · obtain ⟨rfl, rfl⟩ := Prod.mk.injEq .. ▸ heq
          rw [hpit] at heqp
          simp only [Except.ok.injEq, Option.some.injEq] at heqp
          subst heqp
          exact List.mem_cons_self _ _
        · exact List.mem_cons_of_mem _ (ih (idx + 1) l' hr p nd it hmem' hpit)

theorem scan_emits_under_root (jl : String → Except Unit JVal) (fs : FS)
    (root : AbsPath) (rest : List String) (nd : FNode) (its : List Item)
    (hne : rest ≠ [])
    (hnode : fs.lookup (root ++ rest) = some nd)
    (hsuffix : IMAGE_EXTS.contains (pyLower (pySuffix (lastName (root ++ rest)))) = true)
    (hok : (load_items_scan (fun p => p) jl fs root).1 = .ok its) :
    ∃ it ∈ its, it.imagePath = rest ∧ it.name = lastName (root ++ rest) := by
  have hmem : (root ++ rest, nd) ∈ fs.nodes := lookupN_mem hnode
  have henum : (root ++ rest, nd) ∈ scanEnum fs root := by
    rw [scanEnum, List.mem_filter]
    refine ⟨hmem, ?_⟩
    have hlen : rest.length ≠ 0 := by
      simpa [List.length_eq_zero] using hne
    simp only [startsWithSegs_append, Bool.true_and, decide_eq_true_eq, List.length_append]
    omega
  have hrel : safe_relative (fun p => p) root (root ++ rest) = some rest :=
    relative_to_append _ _
  rw [load_items_scan] at hok
  simp only at hok
  rcases hbs : (buildScan (fun p => p) jl fs root (scanEnum fs root) 1).1 with er | l <;>
    rw [hbs] at hok
  · simp [Except.map] at hok
  simp only [Except.map, Except.ok.injEq] at hok
  subst hok
  obtain ⟨o, ho⟩ := buildScan_ok_entries (fun p => p) jl fs root (scanEnum fs root) 1 l hbs
    (root ++ rest) nd henum
  have ho' := ho
  rw [processScanEntry] at ho'
  rw [if_neg (not_not_intro hsuffix)] at ho'
  split at ho'
  · rename_i heqn
    rw [hrel] at heqn
    simp at heqn
  rename_i rel' heqr
  rw [hrel] at heqr
  simp only [Option.some.injEq] at heqr
  subst heqr
  split at ho'
  · simp at ho'
  rename_i cap heqc
  split at ho'
  · simp at ho'
  rename_i tags heqt
  simp only [Except.ok.injEq] at ho'
  subst ho'
  refine ⟨⟨lastName (root ++ rest), rest, cap, tags⟩, ?_, rfl, rfl⟩
  rw [sortByName, List.mem_insertionSort]
  exact buildScan_mem (fun p => p) jl fs root (scanEnum fs root) 1 l hbs
    (root ++ rest) nd _ henum ho

/-- C10: the derivative cache directories `.thumbs` and `.display` live
inside the dataset root and cache files carry the `.jpg` extension from
`IMAGE_EXTS`, so a scan-mode build over a filesystem in which a cache file
exists (at `make_thumb_path` / `make_display_path` for a relative `rel`)
emits that cache file as an additional DatasetItem of the index. -/
theorem cache_files_become_items (jl : String → Except Unit JVal) (fs : FS)
    (root : AbsPath) (segs : List String) (ndT ndD : FNode) (its : List Item)
    (hok : (load_items_scan (fun p => p) jl fs root).1 = .ok its) :
    (fs.lookup (make_thumb_path root ⟨false, segs⟩) = some ndT →
      ∃ it ∈ its, it.imagePath = [".thumbs"] ++ appendLastPosix segs THUMB_SUFFIX ∧
        it.name = lastName (make_thumb_path root ⟨false, segs⟩)) ∧
    (fs.lookup (make_display_path root ⟨false, segs⟩) = some ndD →
      ∃ it ∈ its, it.imagePath = [".display"] ++ appendLastPosix segs DISPLAY_SUFFIX ∧
        it.name = lastName (make_display_path root ⟨false, segs⟩)) := by
  have hcpT : make_thumb_path root ⟨false, segs⟩
      = root ++ ([".thumbs"] ++ appendLastPosix segs THUMB_SUFFIX) := by
    simp [make_thumb_path, pyJoin]
  have hcpD : make_display_path root ⟨false, segs⟩
      = root ++ ([".display"] ++ appendLastPosix segs DISPLAY_SUFFIX) := by
    simp [make_display_path, pyJoin]
  constructor
  · intro hnode
    rw [hcpT] at hnode ⊢
    refine scan_emits_under_root jl fs root _ ndT its (by simp) hnode ?_ hok
    obtain ⟨s0, hs0⟩ := lastName_append_posix root ".thumbs" segs THUMB_SUFFIX
    rw [hs0, pySuffix_append_thumb]
    decide
  · intro hnode
    rw [hcpD] at hnode ⊢
    refine scan_emits_under_root jl fs root _ ndD its (by simp) hnode ?_ hok
    obtain ⟨s0, hs0⟩ := lastName_append_posix root ".display" segs DISPLAY_SUFFIX
    rw [hs0, pySuffix_append_display]
    decide

/-- Witness for C10: after a derivative for `s.png` exists, the scan emits
the cache file as its own index item. -/
theorem cache_files_become_items_witness :
    ∃ it ∈ [(⟨"s.png", ["s.png"], "", emptyTags⟩ : Item),
        ⟨"s.png.thumb.jpg", [".thumbs", "s.png.thumb.jpg"], "", emptyTags⟩],
      it.imagePath = [".thumbs"] ++ appendLastPosix ["s.png"] THUMB_SUFFIX ∧
        it.name = lastName (make_thumb_path ["r"] ⟨false, ["s.png"]⟩) :=
  (cache_files_become_items jlNever fsWithCache ["r"] ["s.png"]
    (.fileN (.ok "")) .dirN
    [⟨"s.png", ["s.png"], "", emptyTags⟩,
      ⟨"s.png.thumb.jpg", [".thumbs", "s.png.thumb.jpg"], "", emptyTags⟩] rfl).1 rfl

end GalleryViewer
